import Mathlib

/-!
Verification development for the newsroom-bot repository.

The definitions below are a shallow embedding of the Rust sources:

* `verify`, `hexDecode`, `ed25519VerifiedFromRequest`, `ed25519VerifiedJsonFromRequest`,
  `handlePost` embed `src/via-axum/src/routes/discord/interactions.rs`;
* `CommandRouter`, `rartInsert`, `rartGet` embed `src/discord-bot/src/command.rs`
  (the external `rart` radix tree is modelled by its exact-key map contract:
  `insert` replaces the binding of an existing key, `get` is an exact full-key lookup);
* `InteractionHandler.handle` embeds the dispatch state machine of
  `src/discord-bot/src/lib.rs`; the race between the 500 ms timer and the spawned
  handler task is made explicit through the `finishedWithinBudget` parameter, and
  the background follow-up task's effects are reified in `DispatchOutcome`;
* `NewRelease.handle`, `errorResponse` embed `src/discord-bot/src/command/new_release.rs`;
* `trySplitOnce`, `parseDate`, `assembleParsedDate` embed the date parsing of
  `src/discord-bot/src/command/new_release.rs`, with the Rust `u16` / `deranged`
  integer parsers and `time::Date::from_calendar_date` (default feature set,
  calendar years -9999..=9999) modelled by their documented semantics.

Rust panics (`unwrap`, `expect`, `todo!`) are reified via `TaskOutcome.panicked` /
`DispatchOutcome.backgroundPanicked` so that panic-freedom claims are statable.
-/

namespace NewsroomBot

set_option maxRecDepth 100000

/-- Raw byte strings (HTTP bodies, headers, keys, signatures). -/
abbrev Bytes := List Nat

/-! ## Signature verifier (`via-axum/src/routes/discord/interactions.rs`) -/

/-- `VerificationError`: the single error of `verify` (wrapping `ed25519_compact::Error`). -/
inductive VerificationError where
  | verificationFailed
deriving DecidableEq

/-- `verify(body, timestamp, signature, public_key)`: concatenates `timestamp` then
`body` with no separator and delegates to the Ed25519 primitive, which is abstracted
as the boolean function `prim message signature publicKey`. -/
def verify (prim : Bytes → Bytes → Bytes → Bool) (body timestamp : Bytes)
    (signature : Bytes) (publicKey : Bytes) : Except VerificationError Unit :=
  let message := timestamp ++ body
  if prim message signature publicKey then .ok () else .error .verificationFailed

/-- Value of one ASCII hex digit byte (`0-9`, `a-f`, `A-F`), as decoded by the `hex` crate. -/
def hexDigitVal (b : Nat) : Option Nat :=
  if 48 ≤ b ∧ b ≤ 57 then some (b - 48)
  else if 97 ≤ b ∧ b ≤ 102 then some (b - 87)
  else if 65 ≤ b ∧ b ≤ 70 then some (b - 55)
  else none

/-- `hex::decode` on the raw header bytes: fails on odd length or a non-hex byte. -/
def hexDecode : Bytes → Option Bytes
  | [] => some []
  | [_] => none
  | hi :: lo :: rest =>
    match hexDigitVal hi, hexDigitVal lo, hexDecode rest with
    | some h, some l, some tail => some ((h * 16 + l) :: tail)
    | _, _, _ => none

/-- An inbound HTTP request as seen by the extractors: the two Discord signature
headers (absent or raw bytes) and the body bytes. -/
structure Request where
  xSignatureEd25519 : Option Bytes
  xSignatureTimestamp : Option Bytes
  body : Bytes
deriving DecidableEq

/-- The distinct rejection cases produced by the extraction pipeline. -/
inductive Rejection where
  | missingSignatureHeader
  | signatureInvalidHex
  | signatureInvalidKey
  | missingTimestampHeader
  | verificationFailed
  | jsonDeserializationFailed
deriving DecidableEq

/-- HTTP status code of each rejection, from the `IntoResponse` impls:
`SignatureInvalidHex` and `SignatureInvalidKey` are `StatusCode::BAD_REQUEST`,
`VerificationError` is `StatusCode::FORBIDDEN`, the `TypedHeader` rejections and
the serde rejection are `BAD_REQUEST`. -/
def rejectionStatus : Rejection → Nat
  | .missingSignatureHeader => 400
  | .signatureInvalidHex => 400
  | .signatureInvalidKey => 400
  | .missingTimestampHeader => 400
  | .verificationFailed => 403
  | .jsonDeserializationFailed => 400

/-- Response body of each rejection (the snafu display message rendered by
`Report::from_error`). -/
def rejectionBody : Rejection → String
  | .missingSignatureHeader => "Header of type `x-signature-ed25519` was missing"
  | .signatureInvalidHex => "the given signature is not represented in hex"
  | .signatureInvalidKey =>
      "the given signature does not represent a valid ED25519 compact signature"
  | .missingTimestampHeader => "Header of type `x-signature-timestamp` was missing"
  | .verificationFailed =>
      "all the needed information was provided, but this message was not signed with the private key corresponding to this public key, so something suspicious may be going on"
  | .jsonDeserializationFailed => "JSON deserialization error"

/-- Checkpoints of the HTTP extraction pipeline, in execution order. -/
inductive HttpEvent where
  | verifyOk
  | jsonParsed
deriving DecidableEq

/-- `Ed25519Verified::from_request`: extract the signature header, hex-decode it,
check it forms a 64-byte Ed25519 signature (`Signature::from_slice`), extract the
timestamp header, take the body bytes, then run `verify`; only then is the body
released. Returns the result paired with the pipeline checkpoints reached. -/
def ed25519VerifiedFromRequest (prim : Bytes → Bytes → Bytes → Bool)
    (req : Request) (publicKey : Bytes) : Except Rejection Bytes × List HttpEvent :=
  match req.xSignatureEd25519 with
  | none => (.error .missingSignatureHeader, [])
  | some sigHeader =>
    match hexDecode sigHeader with
    | none => (.error .signatureInvalidHex, [])
    | some sigBytes =>
      if sigBytes.length = 64 then
        match req.xSignatureTimestamp with
        | none => (.error .missingTimestampHeader, [])
        | some timestamp =>
          match verify prim req.body timestamp sigBytes publicKey with
          | .ok () => (.ok req.body, [.verifyOk])
          | .error _ => (.error .verificationFailed, [])
      else (.error .signatureInvalidKey, [])

/-- `Ed25519VerifiedJson::<D>::from_request`: run the verified-bytes extractor and
only on success run `serde_json::from_slice` (abstracted as `parse`) on the body. -/
def ed25519VerifiedJsonFromRequest {D : Type} (prim : Bytes → Bytes → Bytes → Bool)
    (parse : Bytes → Option D) (req : Request) (publicKey : Bytes) :
    Except Rejection D × List HttpEvent :=
  match ed25519VerifiedFromRequest prim req publicKey with
  | (.error e, evs) => (.error e, evs)
  | (.ok body, evs) =>
    match parse body with
    | some d => (.ok d, evs ++ [.jsonParsed])
    | none => (.error .jsonDeserializationFailed, evs ++ [.jsonParsed])

/-! ## Interactions and responses (`twilight_model` values used by the dispatcher) -/

/-- `InteractionType` variants matched by `InteractionHandler::handle`. -/
inductive InteractionType where
  | ping
  | applicationCommand
  | messageComponent
  | applicationCommandAutocomplete
  | modalSubmit
  | unknown
deriving DecidableEq

/-- `InteractionData`: the part matched by `CommandRouter::handle` — an application
command invocation carrying a command name, or some other data variant. -/
inductive InteractionData where
  | applicationCommand (name : String)
  | other
deriving DecidableEq

/-- The fields of `twilight_model::application::interaction::Interaction` read by the
dispatcher: `kind`, `data`, `token`. -/
structure Interaction where
  kind : InteractionType
  data : Option InteractionData
  token : String
deriving DecidableEq

/-- `InteractionResponseType` variants produced by this codebase. -/
inductive InteractionResponseType where
  | pong
  | channelMessageWithSource
  | deferredChannelMessageWithSource
deriving DecidableEq

/-- The embed fields this codebase sets (`EmbedBuilder`). -/
structure Embed where
  color : Option Nat := none
  title : Option String := none
  description : Option String := none
  footer : Option String := none
deriving DecidableEq

/-- `MessageFlags::EPHEMERAL` = `1 << 6`. -/
def EPHEMERAL : Nat := 64

/-- The `InteractionResponseData` fields this codebase sets. -/
structure InteractionResponseData where
  content : Option String := none
  embeds : Option (List Embed) := none
  flags : Option Nat := none
deriving DecidableEq

/-- `twilight_model::http::interaction::InteractionResponse`. -/
structure InteractionResponse where
  kind : InteractionResponseType
  data : Option InteractionResponseData
deriving DecidableEq

/-! ## Command router (`discord-bot/src/command.rs`) -/

/-- A handler value: `Fn(State, Interaction) -> InteractionResponse`, the async
boundary collapsed (the model evaluates the future to its value). -/
abbrev Handler (St : Type) := St → Interaction → InteractionResponse

/-- `insert` of the `rart` radix tree: exact-key map update, replacing the value of
an existing key and adding a new binding otherwise. -/
def rartInsert {H : Type} : List (String × H) → String → H → List (String × H)
  | [], k, v => [(k, v)]
  | (k2, v2) :: rest, k, v =>
    if k2 = k then (k, v) :: rest else (k2, v2) :: rartInsert rest k v

/-- `get` of the `rart` radix tree: exact, case-sensitive full-key lookup. -/
def rartGet {H : Type} : List (String × H) → String → Option H
  | [], _ => none
  | (k2, v) :: rest, k => if k2 = k then some v else rartGet rest k

/-- `CommandRouter`: the name-to-handler map (generic in the handler value so that
lookup claims can be stated for opaque handlers). -/
structure CommandRouter (H : Type) where
  map : List (String × H)

/-- `CommandRouter::add_already_arced`: a plain `insert` into the map. -/
def CommandRouter.addAlreadyArced {H : Type} (r : CommandRouter H) (name : String)
    (handler : H) : CommandRouter H :=
  ⟨rartInsert r.map name handler⟩

/-- `CommandRouter::from_iter`: start from the default (empty) router and `add` each
entry in order. There is no duplicate check and the construction cannot fail. -/
def CommandRouter.fromIter {H : Type} (entries : List (String × H)) : CommandRouter H :=
  entries.foldl (fun r e => r.addAlreadyArced e.1 e.2) ⟨[]⟩

/-- `HandlingError` of `CommandRouter::handle`. -/
inductive HandlingError where
  | missingInteractionData
  | missingExpectedCommandData
  | commandDoesntExist (name : String)
deriving DecidableEq

/-- The snafu display strings of `HandlingError` (as rendered by `Report::from_error`). -/
def renderHandlingError : HandlingError → String
  | .missingInteractionData => "missing expected interaction data"
  | .missingExpectedCommandData => "missing expected command data"
  | .commandDoesntExist name =>
      "asked to handle a non-existant command \"" ++ name ++ "\""

/-- Observable steps of one dispatch: the router lookup and the handler invocation. -/
inductive DispatchEvent where
  | lookedUp (name : String)
  | handlerInvoked (name : String)
deriving DecidableEq

/-- `CommandRouter::handle`: require `ApplicationCommand` interaction data, look the
command name up in the map, and invoke the found handler. Paired with the
dispatch events that occurred. -/
def CommandRouter.handle {St : Type} (r : CommandRouter (Handler St)) (st : St)
    (i : Interaction) : Except HandlingError InteractionResponse × List DispatchEvent :=
  match i.data with
  | none => (.error .missingInteractionData, [])
  | some (.applicationCommand name) =>
    match rartGet r.map name with
    | none => (.error (.commandDoesntExist name), [.lookedUp name])
    | some h => (.ok (h st i), [.lookedUp name, .handlerInvoked name])
  | some .other => (.error .missingExpectedCommandData, [])

/-! ## Interaction dispatcher (`discord-bot/src/lib.rs`) -/

/-- `InteractionHandleError` of `InteractionHandler::handle`. -/
inductive InteractionHandleError where
  | commandHandleError (source : HandlingError)
deriving DecidableEq

/-- `InteractionHandler`: holds the command router. -/
structure InteractionHandler (St : Type) where
  commandRouter : CommandRouter (Handler St)

deriving instance DecidableEq for Except

/-- The result of a Rust computation that may panic (`unwrap`, `expect`, `todo!`). -/
inductive TaskOutcome (α : Type) where
  | ok (value : α)
  | panicked (message : String)
deriving DecidableEq

/-- One `update_response` call made by the background follow-up task: the
interaction token it targets and the `content` / `embeds` arguments passed. -/
structure FollowUpCall where
  token : String
  content : Option String
  embeds : Option (List Embed)
deriving DecidableEq

/-- The deferred acknowledgment returned when the 500 ms timer fires first:
`DeferredChannelMessageWithSource` with the `EPHEMERAL` flag. -/
def deferredResponse : InteractionResponse :=
  { kind := .deferredChannelMessageWithSource
    data := some { content := none, embeds := none, flags := some EPHEMERAL } }

/-- Everything observable about one dispatch: the value returned to the original
caller, the `update_response` calls performed by the spawned follow-up task,
whether that background task panicked (the `expect("TODO")` on a success response
with no data, reached only on the timeout branch), and the router/handler events. -/
structure DispatchOutcome where
  callerResult : TaskOutcome (Except InteractionHandleError InteractionResponse)
  followUpCalls : List FollowUpCall
  backgroundPanicked : Bool
  events : List DispatchEvent
deriving DecidableEq

/-- `InteractionHandler::handle`: answer `Ping` immediately with `Pong`; for an
`ApplicationCommand`, spawn the router/handler task and race it against the fixed
500 ms timer (`finishedWithinBudget` tells which side won). If the task finishes in
time its result is returned directly (errors wrapped in `CommandHandleError`); if
the timer fires first, a follow-up task is spawned to await the same one-shot
channel and deliver the eventual result via `update_response`, while the caller
immediately receives the ephemeral deferred acknowledgment. The handler task is
never cancelled: it runs and its result is consumed in both branches. All other
interaction kinds hit `todo!()`. -/
def InteractionHandler.handle {St : Type} (h : InteractionHandler St) (st : St)
    (i : Interaction) (finishedWithinBudget : Bool) : DispatchOutcome :=
  match i.kind with
  | .ping =>
    { callerResult := .ok (.ok { kind := .pong, data := none })
      followUpCalls := [], backgroundPanicked := false, events := [] }
  | .applicationCommand =>
    match h.commandRouter.handle st i with
    | (ret, evs) =>
      if finishedWithinBudget then
        { callerResult := .ok (match ret with
            | .ok resp => .ok resp
            | .error e => .error (.commandHandleError e))
          followUpCalls := [], backgroundPanicked := false, events := evs }
      else
        match ret with
        | .ok resp =>
          match resp.data with
          | some d =>
            { callerResult := .ok (.ok deferredResponse)
              followUpCalls := [⟨i.token, d.content, d.embeds⟩]
              backgroundPanicked := false, events := evs }
          | none =>
            { callerResult := .ok (.ok deferredResponse)
              followUpCalls := []
              backgroundPanicked := true, events := evs }
        | .error e =>
          { callerResult := .ok (.ok deferredResponse)
            followUpCalls := [⟨i.token, some (renderHandlingError e), none⟩]
            backgroundPanicked := false, events := evs }
  | _ =>
    { callerResult := .panicked "not yet implemented"
      followUpCalls := [], backgroundPanicked := false, events := [] }

/-! ## HTTP POST handler (`via-axum/src/routes/discord/interactions.rs`, `handle_post`) -/

/-- The HTTP response produced by `handle_post` or by an extractor rejection. -/
structure HttpResponse where
  status : Nat
  jsonBody : Option InteractionResponse
  textBody : Option String
deriving DecidableEq

/-- Everything observable about one `handle_post` call: the HTTP-level outcome
(including a possible panic from the `todo!()` error arm), the extraction
checkpoints reached, and — when the dispatcher was actually invoked — its outcome. -/
structure PostOutcome where
  http : TaskOutcome HttpResponse
  httpEvents : List HttpEvent
  dispatch : Option DispatchOutcome
deriving DecidableEq

/-- `handle_post`: run the `Ed25519VerifiedJson<Interaction>` extractor; a rejection
becomes its HTTP error response and the dispatcher is never invoked; otherwise
dispatch the interaction, returning `Json(response)` on `Ok` and hitting `todo!()`
on `Err`. -/
def handlePost {St : Type} (prim : Bytes → Bytes → Bytes → Bool)
    (parse : Bytes → Option Interaction) (h : InteractionHandler St) (st : St)
    (publicKey : Bytes) (req : Request) (finishedWithinBudget : Bool) : PostOutcome :=
  match ed25519VerifiedJsonFromRequest prim parse req publicKey with
  | (.error e, evs) =>
    { http := .ok { status := rejectionStatus e, jsonBody := none,
                    textBody := some (rejectionBody e) }
      httpEvents := evs, dispatch := none }
  | (.ok interaction, evs) =>
    let d := h.handle st interaction finishedWithinBudget
    { http := match d.callerResult with
        | .ok (.ok resp) => .ok { status := 200, jsonBody := some resp, textBody := none }
        | .ok (.error _) => .panicked "not yet implemented"
        | .panicked m => .panicked m
      httpEvents := evs, dispatch := some d }

/-! ## The `new-release` command handler (`discord-bot/src/command/new_release.rs`) -/

/-- `HandleError` of the `new-release` command (source chains collapsed to the variant). -/
inductive HandleError where
  | notUsedInGuild
  | urlMissing
  | urlNotString
  | urlParseError
  | rolesMapError
  | releaseError
deriving DecidableEq

/-- The snafu display strings of `HandleError`. -/
def renderHandleError : HandleError → String
  | .notUsedInGuild => "the command was run outside of a Discord server"
  | .urlMissing => "the `url` argument wasn't provided"
  | .urlNotString => "the `url` argument wasn't a string like it's supposed to be"
  | .urlParseError => "the `url` argument couldn't be parsed as a URL"
  | .rolesMapError =>
      "couldn't get the roles in this server from Discord for pinging purposes"
  | .releaseError => "couldn't get the release data"

/-- `0xef4444`, the error embed color. -/
def COLOR_ERROR : Nat := 0xef4444

/-- The red "Error" embed built by `impl From<HandleError> for InteractionResponse`. -/
def errorEmbed (e : HandleError) : Embed :=
  { color := some COLOR_ERROR, title := some "Error",
    description := some (renderHandleError e),
    footer := some "Please report this to J / Navith!" }

/-- `impl From<HandleError> for InteractionResponse`: an ephemeral
`ChannelMessageWithSource` carrying a red "Error" embed with the rendered error. -/
def errorResponse (e : HandleError) : InteractionResponse :=
  { kind := .channelMessageWithSource
    data := some
      { content := none
        embeds := some [errorEmbed e]
        flags := some EPHEMERAL } }

/-- `new_release::handle`: run `handle_impl` (its fallible result supplied by
`impl`) and convert an error into the rendered error response. The handler itself
never fails or panics on the error path. -/
def NewRelease.handle (implResult : Except HandleError InteractionResponse) :
    InteractionResponse :=
  match implResult with
  | .ok r => r
  | .error e => errorResponse e

/-! ## Date parsing (`discord-bot/src/command/new_release.rs`) -/

/-- Error cases of Rust `u16::from_str` (`std::num::ParseIntError` kinds reachable
for an unsigned type). -/
inductive RustParseIntError where
  | empty
  | invalidDigit
  | posOverflow
deriving DecidableEq

/-- Error cases of `deranged::ParseIntError` for `RangedU8<MIN, MAX>`. -/
inductive DerangedParseIntError where
  | empty
  | invalidDigit
  | overflow
  | underflow
deriving DecidableEq

/-- Value of one ASCII decimal digit character. -/
def digitVal (c : Char) : Option Nat :=
  if 48 ≤ c.toNat ∧ c.toNat ≤ 57 then some (c.toNat - 48) else none

/-- Left-to-right decimal accumulation; fails on the first non-digit character. -/
def digitsValAcc : Nat → List Char → Option Nat
  | acc, [] => some acc
  | acc, c :: cs =>
    match digitVal c with
    | some d => digitsValAcc (acc * 10 + d) cs
    | none => none

/-- Rust unsigned integer parsing (`FromStr`): an optional leading `+`, then at
least one decimal digit, value at most `maxVal`; empty input is `Empty`, a stray
character is `InvalidDigit`, too large a value is `PosOverflow`. -/
def parseUnsignedCore (maxVal : Nat) (chars : List Char) : Except RustParseIntError Nat :=
  match chars with
  | [] => .error .empty
  | first :: rest =>
    let digitsPart := if first = '+' then rest else first :: rest
    match digitsPart with
    | [] => .error .invalidDigit
    | _ =>
      match digitsValAcc 0 digitsPart with
      | none => .error .invalidDigit
      | some v => if v ≤ maxVal then .ok v else .error .posOverflow

/-- `str::parse::<u16>()`. -/
def parseU16 (s : List Char) : Except RustParseIntError Nat :=
  parseUnsignedCore 65535 s

/-- `str::parse::<RangedU8<minVal, maxVal>>()` (`deranged`): parse like an unsigned
integer, then classify values outside `[minVal, maxVal]` as underflow/overflow. -/
def parseRangedU8 (minVal maxVal : Nat) (s : List Char) :
    Except DerangedParseIntError Nat :=
  match s with
  | [] => .error .empty
  | first :: rest =>
    let digitsPart := if first = '+' then rest else first :: rest
    match digitsPart with
    | [] => .error .invalidDigit
    | _ =>
      match digitsValAcc 0 digitsPart with
      | none => .error .invalidDigit
      | some v =>
        if v < minVal then .error .underflow
        else if maxVal < v then .error .overflow
        else .ok v

/-- `str::split_once` specialised to the one-character delimiters used here. -/
def splitOnce : List Char → Char → Option (List Char × List Char)
  | [], _ => none
  | c :: cs, d =>
    if c = d then some ([], cs)
    else (splitOnce cs d).map (fun p => (c :: p.1, p.2))

/-- `try_split_once`: `split_once` falling back to the whole string with no remainder. -/
def trySplitOnce (s : List Char) (d : Char) : List Char × Option (List Char) :=
  match splitOnce s d with
  | some (before, after) => (before, some after)
  | none => (s, none)

/-- `DayResult = Result<Day, deranged::ParseIntError>` (with `Day = RangedU8<1, 32>`). -/
abbrev DayResult := Except DerangedParseIntError Nat

/-- `MonthResult` (with `Month = RangedU8<1, 12>`). -/
abbrev MonthResult := Except DerangedParseIntError (Nat × Option DayResult)

/-- `YearResult` (with `Year = u16`). -/
abbrev YearResult := Except RustParseIntError (Nat × Option MonthResult)

/-- `parse_date`: split on the first `-` into year and the rest, parse the year as
`u16`; if a rest exists, split it again into month (`RangedU8<1,12>`) and optional
day (`RangedU8<1,32>`), keeping every component's parse result nested. -/
def parseDate (date : List Char) : YearResult :=
  match trySplitOnce date '-' with
  | (year, monthAndDate) =>
    (parseU16 year).map (fun y =>
      (y, monthAndDate.map (fun md =>
        match trySplitOnce md '-' with
        | (month, day) =>
          (parseRangedU8 1 12 month).map (fun m =>
            (m, day.map (fun d => parseRangedU8 1 32 d))))))

/-- `AssembleDateError` of `assemble_parsed_date`. -/
inductive AssembleDateError where
  | parseYearError (source : RustParseIntError)
  | monthMissing
  | parseMonthError (source : DerangedParseIntError)
  | dayMissing
  | parseDayError (source : DerangedParseIntError)
  | outOfRange
deriving DecidableEq

/-- A `time::Date`, kept as its calendar components. -/
structure Date where
  year : Int
  month : Nat
  day : Nat
deriving DecidableEq

/-- Proleptic Gregorian leap-year rule (as used by the `time` crate). -/
def isLeapYear (y : Int) : Bool :=
  y % 4 == 0 && (y % 100 != 0 || y % 400 == 0)

/-- Number of days of a month (1-12) in a given year. -/
def daysInMonth (y : Int) (m : Nat) : Nat :=
  if m = 2 then (if isLeapYear y then 29 else 28)
  else if m = 4 ∨ m = 6 ∨ m = 9 ∨ m = 11 then 30
  else 31

/-- `time::Date::from_calendar_date` with the crate's default feature set: the year
must lie in `-9999..=9999`, the month in `1..=12`, and the day in
`1..=days_in_month`; otherwise a `ComponentRange` error. -/
def fromCalendarDate (y : Int) (m d : Nat) : Except AssembleDateError Date :=
  if -9999 ≤ y ∧ y ≤ 9999 ∧ 1 ≤ m ∧ m ≤ 12 ∧ 1 ≤ d ∧ d ≤ daysInMonth y m
  then .ok ⟨y, m, d⟩ else .error .outOfRange

/-- `assemble_parsed_date`: unwrap the nested parse results — a year parse error,
missing or unparsable month, missing or unparsable day each become their error —
then build the `time::Date`. -/
def assembleParsedDate (yearResult : YearResult) : Except AssembleDateError Date :=
  match yearResult with
  | .error e => .error (.parseYearError e)
  | .ok (year, monthAndDay) =>
    match monthAndDay with
    | none => .error .monthMissing
    | some (.error e) => .error (.parseMonthError e)
    | some (.ok (month, day)) =>
      match day with
      | none => .error .dayMissing
      | some (.error e) => .error (.parseDayError e)
      | some (.ok d) => fromCalendarDate (year : Int) month d

/-- Decimal digit characters of `n`, most significant first (`fuel`-bounded
structural recursion; `fuel > n` suffices). -/
def natDecimalReprAux : Nat → Nat → List Char
  | 0, _ => []
  | fuel + 1, n =>
    if n < 10 then [Char.ofNat (48 + n)]
    else natDecimalReprAux fuel (n / 10) ++ [Char.ofNat (48 + n % 10)]

/-- The decimal string of `n` (no sign, no leading zeros, `"0"` for zero). -/
def natDecimalRepr (n : Nat) : List Char :=
  natDecimalReprAux (n + 1) n

/-- The decimal string `"year-month-day"`. -/
def renderDate (y m d : Nat) : List Char :=
  natDecimalRepr y ++ '-' :: (natDecimalRepr m ++ '-' :: natDecimalRepr d)

/-! ## Helper lemmas about the router map -/

theorem rartGet_rartInsert {H : Type} (m : List (String × H)) (k : String) (v : H)
    (k2 : String) :
    rartGet (rartInsert m k v) k2 = if k2 = k then some v else rartGet m k2 := by
  induction m with
  | nil =>
    by_cases h : k2 = k
    · subst h; simp [rartInsert, rartGet]
    · simp [rartInsert, rartGet, h, Ne.symm h]
  | cons head rest ih =>
    obtain ⟨k3, v3⟩ := head
    by_cases h3 : k3 = k
    · subst h3
      by_cases h : k2 = k3
      · subst h
        simp [rartInsert, rartGet]
      · simp [rartInsert, rartGet, h, Ne.symm h]
    · by_cases h32 : k3 = k2
      · subst h32
        simp [rartInsert, rartGet, h3, Ne.symm h3]
      · by_cases h : k2 = k
        · subst h
          simp [rartInsert, rartGet, h3, h32, ih]
        · simp [rartInsert, rartGet, h3, h32, h, ih]

theorem rartGet_foldl_not_mem {H : Type} (entries : List (String × H))
    (r : CommandRouter H) (k : String) (hk : k ∉ entries.map Prod.fst) :
    rartGet (entries.foldl (fun r e => r.addAlreadyArced e.1 e.2) r).map k =
      rartGet r.map k := by
  induction entries generalizing r with
  | nil => rfl
  | cons head rest ih =>
    obtain ⟨k1, v1⟩ := head
    simp only [List.map_cons, List.mem_cons] at hk
    push_neg at hk
    simp only [List.foldl_cons]
    rw [ih _ hk.2]
    simp [CommandRouter.addAlreadyArced, rartGet_rartInsert, hk.1]

theorem rartGet_foldl_mem {H : Type} (entries : List (String × H))
    (r : CommandRouter H) (k : String) (v : H) (hmem : (k, v) ∈ entries)
    (hnodup : (entries.map Prod.fst).Nodup) :
    rartGet (entries.foldl (fun r e => r.addAlreadyArced e.1 e.2) r).map k = some v := by
  induction entries generalizing r with
  | nil => cases hmem
  | cons head rest ih =>
    obtain ⟨k1, v1⟩ := head
    simp only [List.map_cons, List.nodup_cons] at hnodup
    rcases List.mem_cons.mp hmem with heq | hrest
    · obtain ⟨hk, hv⟩ := Prod.mk.injEq .. ▸ heq
      subst hk; subst hv
      simp only [List.foldl_cons]
      rw [rartGet_foldl_not_mem _ _ _ hnodup.1]
      simp [CommandRouter.addAlreadyArced, rartGet_rartInsert]
    · simp only [List.foldl_cons]
      exact ih _ hrest hnodup.2

/-! ## Claim theorems: router construction and lookup -/

/-- Claim C4, counterexample: building the router from entries with a duplicate
name does not fail — it succeeds and silently keeps the later registration
(`from_iter` performs a plain `insert` per entry and returns `Self`, not a
`Result`; there is no duplicate check). -/
theorem claim4_counterexample :
    rartGet (CommandRouter.fromIter [("dup", 1), ("dup", 2)]).map "dup" = some 2 := by
  rfl

/-- Claim C4, amended: building the router from a sequence of (name, handler)
entries always succeeds; when a name is registered more than once the construction
silently keeps the registration appearing last in the sequence (for duplicate-free
entries, every registration is kept — see the C5 theorem). -/
theorem claim4_amended_last_wins {H : Type} (entries : List (String × H))
    (k : String) (v : H) :
    rartGet (CommandRouter.fromIter (entries ++ [(k, v)])).map k = some v := by
  unfold CommandRouter.fromIter
  rw [List.foldl_append]
  simp only [List.foldl_cons, List.foldl_nil]
  simp [CommandRouter.addAlreadyArced, rartGet_rartInsert]

/-- Claim C5: for a router built from duplicate-free registrations, looking up a
name returns exactly the handler registered under that name for every registered
name, and `None` for every unregistered name — matching is case-sensitive and
exact on the full name, so a strict prefix or extension of a registered name does
not match (it is simply an unregistered name); a failed lookup is surfaced by
`CommandRouter::handle` as the `CommandDoesntExist` error carrying the name. -/
theorem claim5_lookup_exact {St : Type} (entries : List (String × Handler St))
    (hnodup : (entries.map Prod.fst).Nodup) :
    (∀ name hdl, (name, hdl) ∈ entries →
        rartGet (CommandRouter.fromIter entries).map name = some hdl) ∧
    (∀ name, name ∉ entries.map Prod.fst →
        rartGet (CommandRouter.fromIter entries).map name = none) ∧
    (∀ (st : St) (i : Interaction) (name : String),
        i.data = some (.applicationCommand name) → name ∉ entries.map Prod.fst →
        ((CommandRouter.fromIter entries).handle st i).1 =
          .error (.commandDoesntExist name)) := by
  refine ⟨?_, ?_, ?_⟩
  · intro name hdl hmem
    exact rartGet_foldl_mem entries ⟨[]⟩ name hdl hmem hnodup
  · intro name hname
    rw [CommandRouter.fromIter, rartGet_foldl_not_mem entries ⟨[]⟩ name hname]
    rfl
  · intro st i name hdata hname
    have hget : rartGet (CommandRouter.fromIter entries).map name = none := by
      rw [CommandRouter.fromIter, rartGet_foldl_not_mem entries ⟨[]⟩ name hname]
      rfl
    simp [CommandRouter.handle, hdata, hget]

/-- A concrete handler used by witnesses. -/
def handlerPong : Handler Unit := fun _ _ => { kind := .pong, data := none }

/-- Witness for the C5 theorem: with `"new-release"` registered, that exact name
resolves to its handler while `"new"`, `"new-release-x"` and `"New-Release"` do
not match, and dispatching `"new"` surfaces `CommandDoesntExist "new"`. -/
theorem claim5_lookup_exact_witness :
    ([("new-release", handlerPong)].map Prod.fst).Nodup ∧
    rartGet (CommandRouter.fromIter [("new-release", handlerPong)]).map "new-release" =
      some handlerPong ∧
    rartGet (CommandRouter.fromIter [("new-release", handlerPong)]).map "new" = none ∧
    rartGet (CommandRouter.fromIter [("new-release", handlerPong)]).map "new-release-x" =
      none ∧
    rartGet (CommandRouter.fromIter [("new-release", handlerPong)]).map "New-Release" =
      none ∧
    ((CommandRouter.fromIter [("new-release", handlerPong)]).handle ()
        ⟨.applicationCommand, some (.applicationCommand "new"), "t"⟩).1 =
      .error (.commandDoesntExist "new") := by
  have h := claim5_lookup_exact [("new-release", handlerPong)] (by decide)
  exact ⟨by decide,
    h.1 "new-release" handlerPong (by simp),
    h.2.1 "new" (by decide),
    h.2.1 "new-release-x" (by decide),
    h.2.1 "New-Release" (by decide),
    h.2.2 () ⟨.applicationCommand, some (.applicationCommand "new"), "t"⟩ "new" rfl
      (by decide)⟩

/-! ## Claim theorems: signature verification -/

/-- Claim C1: `verify` succeeds exactly when the Ed25519 primitive accepts the
message formed by concatenating the timestamp bytes and then the body bytes (no
separator, no re-encoding) — `verify` is a pure function of its inputs, modelled
here directly as a Lean function. Consequently, for a genuine keypair (a signing
function whose signatures the primitive accepts on the signed message and only on
it), a signature over `timestamp ++ body` verifies, and a signature produced over
any different body or timestamp fails. -/
theorem claim1_verify_concat_and_keypair (prim : Bytes → Bytes → Bytes → Bool)
    (sign : Bytes → Bytes → Bytes) (key publicKey : Bytes)
    (hgenuine : ∀ m, prim m (sign key m) publicKey = true)
    (hbinding : ∀ m mAlt, prim mAlt (sign key m) publicKey = true → mAlt = m)
    (body timestamp : Bytes) :
    (∀ signature, verify prim body timestamp signature publicKey = .ok () ↔
        prim (timestamp ++ body) signature publicKey = true) ∧
    verify prim body timestamp (sign key (timestamp ++ body)) publicKey = .ok () ∧
    (∀ bodyAlt timestampAlt, timestampAlt ++ bodyAlt ≠ timestamp ++ body →
        verify prim body timestamp (sign key (timestampAlt ++ bodyAlt)) publicKey =
          .error .verificationFailed) := by
  have hiff : ∀ signature, verify prim body timestamp signature publicKey = .ok () ↔
      prim (timestamp ++ body) signature publicKey = true := by
    intro signature
    unfold verify
    by_cases hp : prim (timestamp ++ body) signature publicKey = true <;> simp [hp]
  refine ⟨hiff, ?_, ?_⟩
  · exact (hiff _).mpr (hgenuine (timestamp ++ body))
  · intro bodyAlt timestampAlt hne
    unfold verify
    have hfalse : prim (timestamp ++ body) (sign key (timestampAlt ++ bodyAlt))
        publicKey ≠ true := by
      intro htrue
      exact hne ((hbinding _ _ htrue).symm ▸ rfl)
    simp [hfalse]

/-- A toy Ed25519 primitive for witnesses: accept exactly the signature
`publicKey ++ message`. -/
def primToy : Bytes → Bytes → Bytes → Bool :=
  fun m s k => decide (s = k ++ m)

/-- The matching toy signing function: sign by prefixing the key. -/
def signToy : Bytes → Bytes → Bytes :=
  fun key m => key ++ m

/-- Witness for the C1 theorem at the toy scheme: the genuine signature over
`[20] ++ [10]` verifies for body `[10]`, timestamp `[20]`, and a signature over
the different body `[11]` fails. -/
theorem claim1_verify_concat_and_keypair_witness :
    verify primToy [10] [20] (signToy [1] ([20] ++ [10])) [1] = .ok () ∧
    verify primToy [10] [20] (signToy [1] ([20] ++ [11])) [1] =
      .error .verificationFailed := by
  have hgenuine : ∀ m, primToy m (signToy [1] m) [1] = true := by
    intro m; simp [primToy, signToy]
  have hbinding : ∀ m mAlt, primToy mAlt (signToy [1] m) [1] = true → mAlt = m := by
    intro m mAlt h
    simp [primToy, signToy] at h
    exact h.symm
  have h := claim1_verify_concat_and_keypair primToy signToy [1] [1] hgenuine hbinding
    [10] [20]
  exact ⟨h.2.1, h.2.2 [11] [20] (by decide)⟩

/-! ## Claim theorems: dispatcher immediate paths -/

/-- Claim C9: a `Ping` interaction is answered immediately with the fixed
acknowledgment — an `InteractionResponse` of kind `Pong` carrying no data — and
the event list is empty: no router lookup is performed and no command handler is
invoked, regardless of timing. -/
theorem claim9_ping_pong {St : Type} (h : InteractionHandler St) (st : St)
    (data : Option InteractionData) (token : String) (finishedWithinBudget : Bool) :
    h.handle st ⟨.ping, data, token⟩ finishedWithinBudget =
      { callerResult := .ok (.ok { kind := .pong, data := none })
        followUpCalls := [], backgroundPanicked := false, events := [] } := rfl

/-! ## Claim theorems: the extraction pipeline -/

theorem ed25519VerifiedFromRequest_characterization
    (prim : Bytes → Bytes → Bytes → Bool) (req : Request) (publicKey : Bytes) :
    (∃ e, ed25519VerifiedFromRequest prim req publicKey = (.error e, [])) ∨
    (∃ sigHeader sigBytes timestamp,
      req.xSignatureEd25519 = some sigHeader ∧
      hexDecode sigHeader = some sigBytes ∧
      sigBytes.length = 64 ∧
      req.xSignatureTimestamp = some timestamp ∧
      verify prim req.body timestamp sigBytes publicKey = .ok () ∧
      ed25519VerifiedFromRequest prim req publicKey = (.ok req.body, [.verifyOk])) := by
  obtain ⟨osig, ots, rbody⟩ := req
  rcases osig with _ | sigHeader
  · exact .inl ⟨.missingSignatureHeader, rfl⟩
  rcases hdec : hexDecode sigHeader with _ | sigBytes
  · refine .inl ⟨.signatureInvalidHex, ?_⟩
    simp [ed25519VerifiedFromRequest, hdec]
  by_cases hlen : sigBytes.length = 64
  · rcases ots with _ | timestamp
    · refine .inl ⟨.missingTimestampHeader, ?_⟩
      simp [ed25519VerifiedFromRequest, hdec, hlen]
    rcases hver : verify prim rbody timestamp sigBytes publicKey with e | u
    · cases e
      refine .inl ⟨.verificationFailed, ?_⟩
      simp [ed25519VerifiedFromRequest, hdec, hlen, hver]
    · cases u
      refine .inr ⟨sigHeader, sigBytes, timestamp, rfl, hdec, hlen, rfl, hver, ?_⟩
      simp [ed25519VerifiedFromRequest, hdec, hlen, hver]
  · refine .inl ⟨.signatureInvalidKey, ?_⟩
    simp [ed25519VerifiedFromRequest, hdec, hlen]

/-- Claim C2: the extraction pipeline runs `verify` before the body is ever parsed
as JSON, and the dispatcher (hence any command handler) is only reached after the
body has been parsed — so after verification succeeded on those exact body bytes.
Whenever verification fails, or a signature/timestamp header is absent or
malformed, the request is rejected with an HTTP error response (never 200) and the
dispatcher is never invoked. -/
theorem claim2_verification_precedes_parsing {St : Type}
    (prim : Bytes → Bytes → Bytes → Bool) (parse : Bytes → Option Interaction)
    (h : InteractionHandler St) (st : St) (publicKey : Bytes) (req : Request)
    (finishedWithinBudget : Bool) :
    ((handlePost prim parse h st publicKey req finishedWithinBudget).httpEvents = [] ∨
     (handlePost prim parse h st publicKey req finishedWithinBudget).httpEvents =
       [.verifyOk] ∨
     (handlePost prim parse h st publicKey req finishedWithinBudget).httpEvents =
       [.verifyOk, .jsonParsed]) ∧
    (.jsonParsed ∈
        (handlePost prim parse h st publicKey req finishedWithinBudget).httpEvents →
      ∃ sigHeader sigBytes timestamp,
        req.xSignatureEd25519 = some sigHeader ∧
        hexDecode sigHeader = some sigBytes ∧
        sigBytes.length = 64 ∧
        req.xSignatureTimestamp = some timestamp ∧
        verify prim req.body timestamp sigBytes publicKey = .ok ()) ∧
    ((handlePost prim parse h st publicKey req finishedWithinBudget).dispatch.isSome →
      .jsonParsed ∈
        (handlePost prim parse h st publicKey req finishedWithinBudget).httpEvents) ∧
    ((handlePost prim parse h st publicKey req finishedWithinBudget).dispatch = none →
      ∃ e, (handlePost prim parse h st publicKey req finishedWithinBudget).http =
          .ok { status := rejectionStatus e, jsonBody := none,
                textBody := some (rejectionBody e) } ∧
        rejectionStatus e ≠ 200) := by
  rcases ed25519VerifiedFromRequest_characterization prim req publicKey with
    ⟨e, hchar⟩ | ⟨sigHeader, sigBytes, timestamp, h1, h2, h3, h4, h5, hchar⟩
  · have hjson : ed25519VerifiedJsonFromRequest prim parse req publicKey =
        (.error e, []) := by
      simp [ed25519VerifiedJsonFromRequest, hchar]
    refine ⟨?_, ?_, ?_, ?_⟩
    · left
      simp [handlePost, hjson]
    · intro hmem
      simp [handlePost, hjson] at hmem
    · intro hdisp
      simp [handlePost, hjson] at hdisp
    · intro _
      refine ⟨e, ?_, ?_⟩
      · simp [handlePost, hjson]
      · cases e <;> simp [rejectionStatus]
  · rcases hp : parse req.body with _ | interaction
    · have hjson : ed25519VerifiedJsonFromRequest prim parse req publicKey =
          (.error .jsonDeserializationFailed, [.verifyOk, .jsonParsed]) := by
        simp [ed25519VerifiedJsonFromRequest, hchar, hp]
      refine ⟨?_, ?_, ?_, ?_⟩
      · right; right
        simp [handlePost, hjson]
      · intro _
        exact ⟨sigHeader, sigBytes, timestamp, h1, h2, h3, h4, h5⟩
      · intro _
        simp [handlePost, hjson]
      · intro _
        exact ⟨.jsonDeserializationFailed, by simp [handlePost, hjson], by
          simp [rejectionStatus]⟩
    · have hjson : ed25519VerifiedJsonFromRequest prim parse req publicKey =
          (.ok interaction, [.verifyOk, .jsonParsed]) := by
        simp [ed25519VerifiedJsonFromRequest, hchar, hp]
      refine ⟨?_, ?_, ?_, ?_⟩
      · right; right
        simp [handlePost, hjson]
      · intro _
        exact ⟨sigHeader, sigBytes, timestamp, h1, h2, h3, h4, h5⟩
      · intro _
        simp [handlePost, hjson]
      · intro hdisp
        simp [handlePost, hjson] at hdisp

/-- A JSON parser used by witnesses: always yields a fixed `Ping` interaction. -/
def parsePing : Bytes → Option Interaction :=
  fun _ => some ⟨.ping, none, "t"⟩

/-- An interaction handler over trivial state, used by witnesses. -/
def handlerUnit : InteractionHandler Unit :=
  ⟨CommandRouter.fromIter [("new-release", handlerPong)]⟩

/-- A request whose signature header is 128 ASCII `0`s (a well-formed 64-byte hex
signature) with a timestamp header present. -/
def reqWellFormed : Request :=
  { xSignatureEd25519 := some (List.replicate 128 48)
    xSignatureTimestamp := some [49, 50]
    body := [123, 125] }

/-- The all-accepting toy primitive. -/
def primAccept : Bytes → Bytes → Bytes → Bool := fun _ _ _ => true

/-- The all-rejecting toy primitive. -/
def primReject : Bytes → Bytes → Bytes → Bool := fun _ _ _ => false

/-- Witness for the C2 theorem: on a well-formed accepted request the pipeline
reaches exactly the checkpoints `verifyOk` then `jsonParsed`, and verification
succeeded on the exact body bytes. -/
theorem claim2_verification_precedes_parsing_witness :
    (handlePost primAccept parsePing handlerUnit () [] reqWellFormed true).httpEvents =
      [.verifyOk, .jsonParsed] ∧
    (∃ sigHeader sigBytes timestamp,
      reqWellFormed.xSignatureEd25519 = some sigHeader ∧
      hexDecode sigHeader = some sigBytes ∧
      sigBytes.length = 64 ∧
      reqWellFormed.xSignatureTimestamp = some timestamp ∧
      verify primAccept reqWellFormed.body timestamp sigBytes [] = .ok ()) := by
  have h := claim2_verification_precedes_parsing primAccept parsePing handlerUnit ()
    [] reqWellFormed true
  exact ⟨by decide, h.2.1 (by decide)⟩

/-! ## Claim theorems: authentication error reporting -/

/-- Claim C6, counterexample: the three authentication failure cases are *not*
reported uniformly. A non-hex signature is answered with HTTP 400 (neither 401 nor
403) and a body naming the hex problem, while a cryptographic mismatch is answered
with 403 and a different body — the response status and body distinguish the
cases. -/
theorem claim6_counterexample :
    (handlePost primReject parsePing handlerUnit () []
        { reqWellFormed with xSignatureEd25519 := some [104] } true).http =
      .ok { status := 400, jsonBody := none,
            textBody := some "the given signature is not represented in hex" } ∧
    (handlePost primReject parsePing handlerUnit () [] reqWellFormed true).http =
      .ok { status := 403, jsonBody := none,
            textBody := some
              "all the needed information was provided, but this message was not signed with the private key corresponding to this public key, so something suspicious may be going on" } ∧
    (400 : Nat) ≠ 401 ∧ (400 : Nat) ≠ 403 ∧
    rejectionBody .signatureInvalidHex ≠ rejectionBody .verificationFailed := by
  exact ⟨by decide, by decide, by decide, by decide, by decide⟩

/-- Claim C6, amended: a signature that is not hex and a hex signature of the wrong
length are each rejected with HTTP 400 (Bad Request) and a distinct human-readable
message naming the malformation, while only a well-formed signature that fails
cryptographic verification is rejected with HTTP 403; the responses therefore
distinguish the cases rather than reporting them uniformly. In every case the
dispatcher is not invoked. -/
theorem claim6_amended_statuses {St : Type} (prim : Bytes → Bytes → Bytes → Bool)
    (parse : Bytes → Option Interaction) (h : InteractionHandler St) (st : St)
    (publicKey : Bytes) (req : Request) (finishedWithinBudget : Bool) :
    (∀ sigHeader, req.xSignatureEd25519 = some sigHeader →
      hexDecode sigHeader = none →
      handlePost prim parse h st publicKey req finishedWithinBudget =
        { http := .ok { status := 400, jsonBody := none,
                        textBody := some (rejectionBody .signatureInvalidHex) }
          httpEvents := [], dispatch := none }) ∧
    (∀ sigHeader sigBytes, req.xSignatureEd25519 = some sigHeader →
      hexDecode sigHeader = some sigBytes → sigBytes.length ≠ 64 →
      handlePost prim parse h st publicKey req finishedWithinBudget =
        { http := .ok { status := 400, jsonBody := none,
                        textBody := some (rejectionBody .signatureInvalidKey) }
          httpEvents := [], dispatch := none }) ∧
    (∀ sigHeader sigBytes timestamp, req.xSignatureEd25519 = some sigHeader →
      hexDecode sigHeader = some sigBytes → sigBytes.length = 64 →
      req.xSignatureTimestamp = some timestamp →
      prim (timestamp ++ req.body) sigBytes publicKey = false →
      handlePost prim parse h st publicKey req finishedWithinBudget =
        { http := .ok { status := 403, jsonBody := none,
                        textBody := some (rejectionBody .verificationFailed) }
          httpEvents := [], dispatch := none }) ∧
    rejectionBody .signatureInvalidHex ≠ rejectionBody .signatureInvalidKey ∧
    rejectionBody .signatureInvalidHex ≠ rejectionBody .verificationFailed ∧
    rejectionBody .signatureInvalidKey ≠ rejectionBody .verificationFailed := by
  refine ⟨?_, ?_, ?_, by decide, by decide, by decide⟩
  · intro sigHeader hsig hdec
    simp [handlePost, ed25519VerifiedJsonFromRequest, ed25519VerifiedFromRequest,
      hsig, hdec, rejectionStatus]
  · intro sigHeader sigBytes hsig hdec hlen
    simp [handlePost, ed25519VerifiedJsonFromRequest, ed25519VerifiedFromRequest,
      hsig, hdec, hlen, rejectionStatus]
  · intro sigHeader sigBytes timestamp hsig hdec hlen hts hprim
    simp [handlePost, ed25519VerifiedJsonFromRequest, ed25519VerifiedFromRequest,
      hsig, hdec, hlen, hts, verify, hprim, rejectionStatus]

/-- Witness for the amended C6 theorem, at three concrete requests hitting each
case: a non-hex signature header, a too-short hex signature, and a rejected
well-formed signature. -/
theorem claim6_amended_statuses_witness :
    handlePost primReject parsePing handlerUnit () []
        { reqWellFormed with xSignatureEd25519 := some [104] } true =
      { http := .ok { status := 400, jsonBody := none,
                      textBody := some (rejectionBody .signatureInvalidHex) }
        httpEvents := [], dispatch := none } ∧
    handlePost primReject parsePing handlerUnit () []
        { reqWellFormed with xSignatureEd25519 := some [48, 48] } true =
      { http := .ok { status := 400, jsonBody := none,
                      textBody := some (rejectionBody .signatureInvalidKey) }
        httpEvents := [], dispatch := none } ∧
    handlePost primReject parsePing handlerUnit () [] reqWellFormed true =
      { http := .ok { status := 403, jsonBody := none,
                      textBody := some (rejectionBody .verificationFailed) }
        httpEvents := [], dispatch := none } := by
  have h := claim6_amended_statuses primReject parsePing handlerUnit () []
  exact ⟨(h { reqWellFormed with xSignatureEd25519 := some [104] } true).1 [104]
      rfl (by decide),
    (h { reqWellFormed with xSignatureEd25519 := some [48, 48] } true).2.1 [48, 48]
      [0] rfl (by decide) (by decide),
    (h reqWellFormed true).2.2.1 (List.replicate 128 48) (List.replicate 64 0)
      [49, 50] rfl (by decide) (by decide) rfl rfl⟩

/-! ## Claim theorems: the dispatch deadline race -/

/-- Claim C3: for an application-command interaction, when the handler does not
complete within the 500 ms budget the caller receives exactly one response and it
is the ephemeral-flagged `DeferredChannelMessageWithSource`; the handler keeps
running — the dispatch events (router lookup, handler invocation) are identical to
the in-budget run; the follow-up `update_response` is performed at most once, it
carries the handler's eventual success content/embeds or the rendered failure
message, and it is never performed when the handler completed within the budget. -/
theorem claim3_deadline_race {St : Type} (ih : InteractionHandler St) (st : St)
    (data : Option InteractionData) (token : String) :
    (ih.handle st ⟨.applicationCommand, data, token⟩ false).callerResult =
      .ok (.ok deferredResponse) ∧
    deferredResponse.kind = .deferredChannelMessageWithSource ∧
    deferredResponse.data =
      some { content := none, embeds := none, flags := some EPHEMERAL } ∧
    (ih.handle st ⟨.applicationCommand, data, token⟩ false).followUpCalls.length ≤ 1 ∧
    (ih.handle st ⟨.applicationCommand, data, token⟩ true).followUpCalls = [] ∧
    (ih.handle st ⟨.applicationCommand, data, token⟩ false).events =
      (ih.handle st ⟨.applicationCommand, data, token⟩ true).events ∧
    (∀ resp d,
      (ih.commandRouter.handle st ⟨.applicationCommand, data, token⟩).1 = .ok resp →
      resp.data = some d →
      (ih.handle st ⟨.applicationCommand, data, token⟩ false).followUpCalls =
        [⟨token, d.content, d.embeds⟩]) ∧
    (∀ e,
      (ih.commandRouter.handle st ⟨.applicationCommand, data, token⟩).1 = .error e →
      (ih.handle st ⟨.applicationCommand, data, token⟩ false).followUpCalls =
        [⟨token, some (renderHandlingError e), none⟩]) := by
  rcases hret : ih.commandRouter.handle st ⟨.applicationCommand, data, token⟩ with
    ⟨ret, evs⟩
  refine ⟨?_, rfl, rfl, ?_, ?_, ?_, ?_, ?_⟩
  · rcases ret with e | resp
    · simp [InteractionHandler.handle, hret]
    · rcases hd : resp.data with _ | d <;>
        simp [InteractionHandler.handle, hret, hd]
  · rcases ret with e | resp
    · simp [InteractionHandler.handle, hret]
    · rcases hd : resp.data with _ | d <;>
        simp [InteractionHandler.handle, hret, hd]
  · simp [InteractionHandler.handle, hret]
  · rcases ret with e | resp
    · simp [InteractionHandler.handle, hret]
    · rcases hd : resp.data with _ | d <;>
        simp [InteractionHandler.handle, hret, hd]
  · intro resp d hok hd
    have hok2 : ret = Except.ok resp := hok
    subst hok2
    simp [InteractionHandler.handle, hret, hd]
  · intro e herr
    have herr2 : ret = Except.error e := herr
    subst herr2
    simp [InteractionHandler.handle, hret]

/-- A handler answering with fixed content, used by the C3 witness. -/
def handlerContent : Handler Unit :=
  fun _ _ =>
    { kind := .channelMessageWithSource
      data := some { content := some "done", embeds := none, flags := none } }

/-- Witness for the C3 theorem: with the `"c"` handler registered and answering
`"done"`, the timed-out dispatch performs exactly one follow-up carrying that
content, and the in-budget dispatch performs none. -/
theorem claim3_deadline_race_witness :
    (InteractionHandler.handle ⟨CommandRouter.fromIter [("c", handlerContent)]⟩ ()
        ⟨.applicationCommand, some (.applicationCommand "c"), "tok"⟩ false).followUpCalls =
      [⟨"tok", some "done", none⟩] ∧
    (InteractionHandler.handle ⟨CommandRouter.fromIter [("c", handlerContent)]⟩ ()
        ⟨.applicationCommand, some (.applicationCommand "c"), "tok"⟩ true).followUpCalls =
      [] := by
  have h := claim3_deadline_race ⟨CommandRouter.fromIter [("c", handlerContent)]⟩ ()
    (some (.applicationCommand "c")) "tok"
  exact ⟨h.2.2.2.2.2.2.1 (handlerContent ()
      ⟨.applicationCommand, some (.applicationCommand "c"), "tok"⟩)
      { content := some "done", embeds := none, flags := none } rfl rfl,
    h.2.2.2.2.1⟩

/-! ## Claim theorems: handler failure semantics -/

/-- Claim C7: when the `new-release` handler's implementation fails with any error,
the handler converts it into the rendered user-facing error response (an ephemeral
`ChannelMessageWithSource` carrying the red "Error" embed), so the Dispatcher
delivers an error response through the immediate path (within budget) or through
the follow-up path (after the deadline) — it never panics and the background task
never panics on a handler failure. -/
theorem claim7_handler_failure_rendered {St : Type} (st : St)
    (r : CommandRouter (Handler St))
    (impl : St → Interaction → Except HandleError InteractionResponse)
    (e : HandleError) (token : String)
    (hreg : rartGet r.map "new-release" =
      some (fun s j => NewRelease.handle (impl s j)))
    (himpl : impl st
        ⟨.applicationCommand, some (.applicationCommand "new-release"), token⟩ =
      .error e) :
    InteractionHandler.handle ⟨r⟩ st
        ⟨.applicationCommand, some (.applicationCommand "new-release"), token⟩ true =
      { callerResult := .ok (.ok (errorResponse e)), followUpCalls := []
        backgroundPanicked := false
        events := [.lookedUp "new-release", .handlerInvoked "new-release"] } ∧
    InteractionHandler.handle ⟨r⟩ st
        ⟨.applicationCommand, some (.applicationCommand "new-release"), token⟩ false =
      { callerResult := .ok (.ok deferredResponse)
        followUpCalls := [⟨token, none, some [errorEmbed e]⟩]
        backgroundPanicked := false
        events := [.lookedUp "new-release", .handlerInvoked "new-release"] } ∧
    (errorResponse e).kind = .channelMessageWithSource ∧
    (errorResponse e).data =
      some { content := none, embeds := some [errorEmbed e], flags := some EPHEMERAL } := by
  have hrouted : CommandRouter.handle r st
      ⟨.applicationCommand, some (.applicationCommand "new-release"), token⟩ =
      (.ok (errorResponse e),
        [.lookedUp "new-release", .handlerInvoked "new-release"]) := by
    simp [CommandRouter.handle, hreg, himpl, NewRelease.handle]
  refine ⟨?_, ?_, rfl, rfl⟩
  · simp [InteractionHandler.handle, hrouted]
  · simp [InteractionHandler.handle, hrouted, errorResponse]

/-- A `handle_impl` that always fails, used by the C7 witness. -/
def implAlwaysFails : Unit → Interaction → Except HandleError InteractionResponse :=
  fun _ _ => .error .notUsedInGuild

/-- Witness for the C7 theorem: a concrete failing `new-release` invocation is
answered, within budget, by the rendered error response with no panic. -/
theorem claim7_handler_failure_rendered_witness :
    InteractionHandler.handle
        ⟨CommandRouter.fromIter
          [("new-release", fun s j => NewRelease.handle (implAlwaysFails s j))]⟩ ()
        ⟨.applicationCommand, some (.applicationCommand "new-release"), "tk"⟩ true =
      { callerResult := .ok (.ok (errorResponse .notUsedInGuild)), followUpCalls := []
        backgroundPanicked := false
        events := [.lookedUp "new-release", .handlerInvoked "new-release"] } := by
  exact (claim7_handler_failure_rendered ()
    (CommandRouter.fromIter
      [("new-release", fun s j => NewRelease.handle (implAlwaysFails s j))])
    implAlwaysFails .notUsedInGuild "tk" rfl rfl).1

/-! ## Claim theorems: unknown command -/

/-- The fixed interaction naming an unregistered command, used for Claim C8. -/
def interactionUnknown : Interaction :=
  ⟨.applicationCommand, some (.applicationCommand "does-not-exist"), "token-d"⟩

/-- The JSON parser yielding `interactionUnknown`, used for Claim C8. -/
def parseUnknown : Bytes → Option Interaction := fun _ => some interactionUnknown

/-- Claim C8: on a verified command invocation whose name `"does-not-exist"` is not
registered, the router performs the lookup, invokes no handler, and surfaces
`CommandDoesntExist "does-not-exist"` as the dispatcher's error result — but
`handle_post`'s `Err` arm is `todo!()`, so the request-handling task panics
("not yet implemented") instead of degrading gracefully, contradicting the
claim's "never crashes or panics on this path". -/
theorem claim8_command_not_found_todo_panics :
    handlePost primAccept parseUnknown handlerUnit () [] reqWellFormed true =
      { http := .panicked "not yet implemented"
        httpEvents := [.verifyOk, .jsonParsed]
        dispatch := some
          { callerResult :=
              .ok (.error (.commandHandleError (.commandDoesntExist "does-not-exist")))
            followUpCalls := [], backgroundPanicked := false
            events := [.lookedUp "does-not-exist"] } } := by
  decide

/-! ## Helper lemmas: decimal rendering and parsing -/

theorem digitVal_ofNat (k : Nat) (hk : k < 10) :
    digitVal (Char.ofNat (48 + k)) = some k := by
  interval_cases k <;> decide

theorem ofNat_digit_ne_dash (k : Nat) (hk : k < 10) : Char.ofNat (48 + k) ≠ '-' := by
  interval_cases k <;> decide

theorem ofNat_digit_ne_plus (k : Nat) (hk : k < 10) : Char.ofNat (48 + k) ≠ '+' := by
  interval_cases k <;> decide

theorem digitsValAcc_append (acc : Nat) (l1 l2 : List Char) :
    digitsValAcc acc (l1 ++ l2) =
      match digitsValAcc acc l1 with
      | some a => digitsValAcc a l2
      | none => none := by
  induction l1 generalizing acc with
  | nil => rfl
  | cons c cs ih =>
    simp only [List.cons_append, digitsValAcc]
    cases digitVal c with
    | none => rfl
    | some d => exact ih _

theorem natDecimalReprAux_spec (n : Nat) :
    ∀ fuel, n < fuel →
      natDecimalReprAux fuel n ≠ [] ∧
      (∀ c ∈ natDecimalReprAux fuel n, ∃ k, k < 10 ∧ c = Char.ofNat (48 + k)) ∧
      ∀ acc, digitsValAcc acc (natDecimalReprAux fuel n) =
        some (acc * 10 ^ (natDecimalReprAux fuel n).length + n) := by
  induction n using Nat.strong_induction_on with
  | _ n ih =>
    intro fuel hfuel
    match fuel, hfuel with
    | fuel + 1, hfuel1 =>
      by_cases h10 : n < 10
      · refine ⟨by simp [natDecimalReprAux, h10], ?_, ?_⟩
        · intro c hc
          simp only [natDecimalReprAux, if_pos h10, List.mem_singleton] at hc
          exact ⟨n, h10, hc⟩
        · intro acc
          simp [natDecimalReprAux, h10, digitsValAcc, digitVal_ofNat n h10]
      · have hn10 : n / 10 < n := Nat.div_lt_self (by omega) (by omega)
        have hf : n / 10 < fuel := by
          have hn : n ≤ fuel := Nat.lt_succ_iff.mp hfuel1
          omega
        obtain ⟨hne, hdig, hval⟩ := ih (n / 10) hn10 fuel hf
        have hrepr : natDecimalReprAux (fuel + 1) n =
            natDecimalReprAux fuel (n / 10) ++ [Char.ofNat (48 + n % 10)] := by
          simp [natDecimalReprAux, h10]
        refine ⟨by simp [hrepr], ?_, ?_⟩
        · intro c hc
          rw [hrepr] at hc
          rcases List.mem_append.mp hc with hc1 | hc2
          · exact hdig c hc1
          · refine ⟨n % 10, Nat.mod_lt n (by omega), ?_⟩
            simpa using hc2
        · intro acc
          rw [hrepr, digitsValAcc_append, hval acc]
          have hmod : n % 10 < 10 := Nat.mod_lt n (by omega)
          simp only [digitsValAcc, digitVal_ofNat (n % 10) hmod]
          have hdm : n / 10 * 10 + n % 10 = n := by omega
          have harith :
              (acc * 10 ^ (natDecimalReprAux fuel (n / 10)).length + n / 10) * 10 +
                n % 10 =
              acc * 10 ^ ((natDecimalReprAux fuel (n / 10)).length + 1) + n := by
            calc (acc * 10 ^ (natDecimalReprAux fuel (n / 10)).length + n / 10) * 10 +
                  n % 10 =
                acc * (10 ^ (natDecimalReprAux fuel (n / 10)).length * 10) +
                  (n / 10 * 10 + n % 10) := by ring
              _ = acc * 10 ^ ((natDecimalReprAux fuel (n / 10)).length + 1) + n := by
                  rw [hdm, pow_succ]
          simp [harith]

theorem natDecimalRepr_ne_nil (n : Nat) : natDecimalRepr n ≠ [] :=
  (natDecimalReprAux_spec n (n + 1) (Nat.lt_succ_self n)).1

theorem natDecimalRepr_digits (n : Nat) :
    ∀ c ∈ natDecimalRepr n, ∃ k, k < 10 ∧ c = Char.ofNat (48 + k) :=
  (natDecimalReprAux_spec n (n + 1) (Nat.lt_succ_self n)).2.1

theorem natDecimalRepr_val (n : Nat) : digitsValAcc 0 (natDecimalRepr n) = some n := by
  have h := (natDecimalReprAux_spec n (n + 1) (Nat.lt_succ_self n)).2.2 0
  simpa using h

theorem dash_not_mem_natDecimalRepr (n : Nat) : '-' ∉ natDecimalRepr n := by
  intro hmem
  obtain ⟨k, hk, hc⟩ := natDecimalRepr_digits n _ hmem
  exact ofNat_digit_ne_dash k hk hc.symm

theorem splitOnce_not_mem (l : List Char) (d : Char) (hd : d ∉ l) :
    splitOnce l d = none := by
  induction l with
  | nil => rfl
  | cons c cs ih =>
    simp only [List.mem_cons, not_or] at hd
    simp [splitOnce, Ne.symm hd.1, ih hd.2]

theorem splitOnce_append (l1 l2 : List Char) (d : Char) (hd : d ∉ l1) :
    splitOnce (l1 ++ d :: l2) d = some (l1, l2) := by
  induction l1 with
  | nil => simp [splitOnce]
  | cons c cs ih =>
    simp only [List.mem_cons, not_or] at hd
    simp [splitOnce, Ne.symm hd.1, ih hd.2]

theorem parseUnsignedCore_repr (maxVal n : Nat) (hn : n ≤ maxVal) :
    parseUnsignedCore maxVal (natDecimalRepr n) = .ok n := by
  obtain ⟨c, cs, hrepr⟩ := List.exists_cons_of_ne_nil (natDecimalRepr_ne_nil n)
  have hplus : c ≠ '+' := by
    obtain ⟨k, hk, hc⟩ := natDecimalRepr_digits n c (by
      rw [hrepr]; exact List.mem_cons_self c cs)
    rw [hc]
    exact ofNat_digit_ne_plus k hk
  have hval : digitsValAcc 0 (c :: cs) = some n := by
    rw [← hrepr]; exact natDecimalRepr_val n
  rw [hrepr]
  simp [parseUnsignedCore, hplus, hval, hn]

theorem parseRangedU8_repr (minVal maxVal n : Nat) (h1 : minVal ≤ n)
    (h2 : n ≤ maxVal) :
    parseRangedU8 minVal maxVal (natDecimalRepr n) = .ok n := by
  obtain ⟨c, cs, hrepr⟩ := List.exists_cons_of_ne_nil (natDecimalRepr_ne_nil n)
  have hplus : c ≠ '+' := by
    obtain ⟨k, hk, hc⟩ := natDecimalRepr_digits n c (by
      rw [hrepr]; exact List.mem_cons_self c cs)
    rw [hc]
    exact ofNat_digit_ne_plus k hk
  have hval : digitsValAcc 0 (c :: cs) = some n := by
    rw [← hrepr]; exact natDecimalRepr_val n
  rw [hrepr]
  simp [parseRangedU8, hplus, hval, Nat.not_lt.mpr h1, Nat.not_lt.mpr h2]

theorem parseDate_renderDate (y m d : Nat) (hy : y ≤ 65535) (hm1 : 1 ≤ m)
    (hm2 : m ≤ 12) (hd1 : 1 ≤ d) (hd2 : d ≤ 32) :
    parseDate (renderDate y m d) = .ok (y, some (.ok (m, some (.ok d)))) := by
  have hysplit : trySplitOnce (renderDate y m d) '-' =
      (natDecimalRepr y, some (natDecimalRepr m ++ '-' :: natDecimalRepr d)) := by
    unfold renderDate trySplitOnce
    rw [splitOnce_append _ _ _ (dash_not_mem_natDecimalRepr y)]
  have hmsplit : trySplitOnce (natDecimalRepr m ++ '-' :: natDecimalRepr d) '-' =
      (natDecimalRepr m, some (natDecimalRepr d)) := by
    unfold trySplitOnce
    rw [splitOnce_append _ _ _ (dash_not_mem_natDecimalRepr m)]
  have hpy : parseU16 (natDecimalRepr y) = .ok y := parseUnsignedCore_repr 65535 y hy
  simp [parseDate, hysplit, hmsplit, hpy,
    parseRangedU8_repr 1 12 m hm1 hm2, parseRangedU8_repr 1 32 d hd1 hd2,
    Except.map]

theorem daysInMonth_le_31 (y : Int) (m : Nat) : daysInMonth y m ≤ 31 := by
  unfold daysInMonth
  split_ifs <;> omega

/-! ## Claim theorems: date round trip -/

/-- Claim C10, counterexample: the year `10000` fits in a `u16` and `10000-1-1` is
a valid proleptic Gregorian calendar date, yet parsing its rendered decimal string
and assembling fails with the `OutOfRange` component error, because
`time::Date::from_calendar_date` (default feature set) only supports calendar
years `-9999..=9999`. -/
theorem claim10_counterexample :
    assembleParsedDate (parseDate (renderDate 10000 1 1)) = .error .outOfRange := by
  decide

/-- Claim C10, amended: for every valid calendar date whose year is at most 9999
(the bound enforced by `time::Date::from_calendar_date` under the crate's default
features — not the full `u16` range), whose month is between 1 and 12, and whose
day is valid for that month (and year), rendering it as the decimal string
`"year-month-day"` and applying `parse_date` then `assemble_parsed_date` returns
`Ok` of exactly that date; and `assemble_parsed_date` returns an error (never a
success) whenever the month component or the day component is absent from the
parsed input. -/
theorem claim10_amended_roundtrip (y m d : Nat) (hy : y ≤ 9999) (hm1 : 1 ≤ m)
    (hm2 : m ≤ 12) (hd1 : 1 ≤ d) (hd2 : d ≤ daysInMonth (y : Int) m) :
    assembleParsedDate (parseDate (renderDate y m d)) = .ok ⟨(y : Int), m, d⟩ ∧
    (∀ yr : Nat, assembleParsedDate (.ok (yr, none)) = .error .monthMissing) ∧
    (∀ (yr mo : Nat),
      assembleParsedDate (.ok (yr, some (.ok (mo, none)))) = .error .dayMissing) := by
  refine ⟨?_, fun yr => rfl, fun yr mo => rfl⟩
  have hd32 : d ≤ 32 := le_trans hd2 (le_trans (daysInMonth_le_31 _ _) (by norm_num))
  rw [parseDate_renderDate y m d (by omega) hm1 hm2 hd1 hd32]
  have hassemble :
      assembleParsedDate (.ok (y, some (.ok (m, some (.ok d))))) =
        fromCalendarDate (y : Int) m d := rfl
  rw [hassemble]
  unfold fromCalendarDate
  rw [if_pos]
  exact ⟨by omega, by omega, hm1, hm2, hd1, hd2⟩

/-- Witness for the amended C10 theorem at the leap date `2024-2-29`. -/
theorem claim10_amended_roundtrip_witness :
    assembleParsedDate (parseDate (renderDate 2024 2 29)) =
      .ok ⟨((2024 : Nat) : Int), 2, 29⟩ ∧
    assembleParsedDate (.ok (2024, none)) = .error .monthMissing ∧
    assembleParsedDate (.ok (2024, some (.ok (2, none)))) = .error .dayMissing := by
  have h := claim10_amended_roundtrip 2024 2 29 (by norm_num) (by norm_num)
    (by norm_num) (by norm_num) (by decide)
  exact ⟨h.1, h.2.1 2024, h.2.2 2024 2⟩

end NewsroomBot
